import Mathlib

/-!
Verification of the SionFlowRT compiler against its specification.

The crate compiled by `src/main.rs` consists of the modules `core`, `manifest`,
`analyzer`, `inliner`, `resolver`, `linearizer`, `codegen` and `linker`
(the "active" pipeline).  The repository additionally contains an older draft
(`model.rs`, `shape_engine.rs`, `codegen_c.rs`, `linear_passes.rs`, ...) that is
not part of the module tree; it is embedded below under the `Legacy` namespace
because several spec sentences were written from it.

Machine integers: all dimension and offset arithmetic in the source is on
`usize` values that stay far below 2^64 in every statement proved here, so they
are modelled as `Nat`.
-/

namespace SionFlowRT

/-!
Executable models of the Rust `str` operations the source uses.  They are
written over `List Char` with explicit fuel where Rust iterates by byte
position, so that every emitted string in the theorems below evaluates
inside the kernel.
-/

/-- Rust `str::starts_with`. -/
def strStartsWith (s p : String) : Bool :=
  p.data.isPrefixOf s.data

/-- Dropping the first `n` characters (used for `strip_prefix` results,
where the prefix is known to be ASCII). -/
def strDrop (s : String) (n : Nat) : String :=
  String.mk (s.data.drop n)

/-- One scan step list for Rust `str::replace`: leftmost-first,
non-overlapping.  The fuel is the remaining scan length. -/
def replaceAllAux (pat rep : List Char) : Nat → List Char → List Char
  | 0, s => s
  | _ + 1, [] => []
  | n + 1, c :: rest =>
      if pat.isPrefixOf (c :: rest) then rep ++ replaceAllAux pat rep n ((c :: rest).drop pat.length)
      else c :: replaceAllAux pat rep n rest

/-- Rust `str::replace`: replace every occurrence of `pat` by `rep`. -/
def strReplaceAll (s pat rep : String) : String :=
  if pat.data.isEmpty then s
  else String.mk (replaceAllAux pat.data rep.data s.data.length s.data)

/-- Rust `str::replacen(pat, rep, 1)`: replace only the first occurrence. -/
def replaceFirstAux (pat rep : List Char) : Nat → List Char → List Char
  | 0, s => s
  | _ + 1, [] => []
  | n + 1, c :: rest =>
      if pat.isPrefixOf (c :: rest) then rep ++ (c :: rest).drop pat.length
      else c :: replaceFirstAux pat rep n rest

/-- Rust `str::replacen(pat, rep, 1)` over strings. -/
def strReplaceFirst (s pat rep : String) : String :=
  if pat.data.isEmpty then s
  else String.mk (replaceFirstAux pat.data rep.data s.data.length s.data)

/-- Substring test (`str::contains`), used to state the absence of a token
in emitted code. -/
def occursAux (pat : List Char) : Nat → List Char → Bool
  | 0, _ => false
  | _ + 1, [] => false
  | n + 1, c :: rest => pat.isPrefixOf (c :: rest) || occursAux pat n rest

/-- `containsSub s pat` is true when `pat` occurs somewhere in `s`. -/
def containsSub (s pat : String) : Bool :=
  occursAux pat.data s.data.length s.data

/-- Rust `str::split_once(c)` on the character list. -/
def splitOnceL (c : Char) : List Char → Option (List Char × List Char)
  | [] => none
  | x :: rest =>
      if x = c then some ([], rest)
      else (splitOnceL c rest).map (fun p => (x :: p.1, p.2))

/-- Rust `str::split_once(c)`: split at the first occurrence. -/
def splitOnce (s : String) (c : Char) : Option (String × String) :=
  (splitOnceL c s.data).map (fun p => (String.mk p.1, String.mk p.2))

/-- `Vec::join(sep)` / `String::intercalate`. -/
def joinSep (sep : String) : List String → String
  | [] => ""
  | [x] => x
  | x :: xs => x ++ sep ++ joinSep sep xs

/-- Digit value of a character, for `str::parse::<usize>`. -/
def digitVal (c : Char) : Option Nat :=
  if '0' ≤ c ∧ c ≤ '9' then some (c.toNat - 48) else none

/-- Rust `str::parse::<usize>` on plain digit strings (the only source ports
parsed this way are `"output"`, `"0"`, `"1"`, ...). -/
def parseNat (s : String) : Option Nat :=
  match s.data with
  | [] => none
  | l => l.foldl (fun acc c =>
      match acc, digitVal c with
      | some n, some d => some (n * 10 + d)
      | _, _ => none) (some 0)

/-- Datatype enum from `src/core/types.rs`. -/
inductive DataType where
  | F32 | F64 | I32 | I64 | U32
deriving DecidableEq, Repr

/-- `DataType::to_c_type` from `src/core/types.rs`. -/
def DataType.toCType : DataType → String
  | .F32 => "float"
  | .F64 => "double"
  | .I32 => "int32_t"
  | .I64 => "int64_t"
  | .U32 => "uint32_t"

/-- `Dim` from `src/core/types.rs`: a concrete size or a named symbol. -/
inductive Dim where
  | Static (v : Nat)
  | Variable (name : String)
deriving DecidableEq, Repr

/-- `Dim::to_c_expr` from `src/core/types.rs`. -/
def Dim.toCExpr : Dim → String
  | .Static v => toString v
  | .Variable s => s

/-- `Shape` from `src/core/types.rs`. -/
structure Shape where
  dims : List Dim
deriving DecidableEq, Repr

/-- `Shape::to_c_size_expr` from `src/core/types.rs`: `"1"` for the empty
shape, otherwise the dims joined with `" * "`. -/
def Shape.toCSizeExpr (s : Shape) : String :=
  if s.dims.isEmpty then "1"
  else joinSep " * " (s.dims.map Dim.toCExpr)

/-- `Port` from `src/core/types.rs`. -/
structure Port where
  name : String
  shape : Shape
  dtype : DataType
deriving DecidableEq, Repr

/-- `Op` from `src/core/op.rs` (the active pipeline's operator type; note
`ReduceSum.axis` and `Split.axis` are `usize`, hence `Nat`). -/
inductive Op where
  | Sin | Abs | Sqrt | Square | Exp | Log
  | Add | Sub | Mul | Div | Min | Max | Pow
  | Input (name : String)
  | Constant (values : List Float)
  | Transpose (permutation : List Nat)
  | ReduceSum (axis : Nat)
  | MatMul
  | Split (axis : Nat) (parts : Nat)
  | Output (name : String)
  | Reshape (new_shape : List Dim)

/-- `serde_json::Value::as_u64` restricted to integer JSON numbers: it yields
a value only for non-negative integers. -/
def jsonAsU64 (v : Int) : Option Nat :=
  if 0 ≤ v then some v.toNat else none

/-- The `"ReduceSum"` arm of `Op::from_json` in `src/core/op.rs`:
`params.get("axis").and_then(|v| v.as_u64()).unwrap_or(0)`.  The argument is
the integer value of the `axis` parameter when present. -/
def reduceSumAxisFromJson (axisParam : Option Int) : Nat :=
  (axisParam.bind jsonAsU64).getD 0

/-- The per-dimension broadcasting match inside `broadcast_shapes` in
`src/resolver/mod.rs` (lines 231-240).  The source's guarded arm
`(Variable(sa), Variable(sb)) if sa == sb` and the following or-pattern arm
`(Variable(s), _) | (_, Variable(s))` both yield the left-hand symbol when
both sides are symbolic, so they are merged into one arm here. -/
def broadcastDim : Dim → Dim → Except String Dim
  | .Static va, .Static vb =>
      if va = vb then .ok (.Static va)
      else if va = 1 then .ok (.Static vb)
      else if vb = 1 then .ok (.Static va)
      else .error ("Shape mismatch for broadcast: " ++ toString va ++ " and " ++ toString vb)
  | .Variable sa, .Variable _ => .ok (.Variable sa)
  | .Variable s, .Static _ => .ok (.Variable s)
  | .Static _, .Variable s => .ok (.Variable s)

/-- Left-padding with `Static(1)` used by the index arithmetic in
`broadcast_shapes`: for `i < max_len - len` the loop reads `Dim::Static(1)`,
afterwards `dims[i - (max_len - len)]`. -/
def leftPadOnes (n : Nat) (l : List Dim) : List Dim :=
  List.replicate (n - l.length) (Dim.Static 1) ++ l

/-- The push-loop with early `return Err` in `broadcast_shapes`, as a
sequencing of the per-dimension results. -/
def collectDims : List (Except String Dim) → Except String (List Dim)
  | [] => .ok []
  | x :: xs =>
      match x with
      | .error e => .error e
      | .ok d =>
          match collectDims xs with
          | .error e => .error e
          | .ok ds => .ok (d :: ds)

/-- `broadcast_shapes` from `src/resolver/mod.rs` (lines 221-243): right-align
the two dim lists against `max_len`, then combine pairwise. -/
def broadcastShapes (a b : Shape) : Except String Shape :=
  let maxLen := max a.dims.length b.dims.length
  match collectDims (List.zipWith broadcastDim (leftPadOnes maxLen a.dims) (leftPadOnes maxLen b.dims)) with
  | .error e => .error e
  | .ok ds => .ok ⟨ds⟩

/-- `infer_shape` from `src/resolver/mod.rs` (lines 107-219), the active
pipeline's per-operator shape rule.  `inputSpecs` models the
`HashMap<String, Port>` of caller-supplied input ports. -/
def inferShape (op : Op) (inputs : List Shape) (inputSpecs : String → Option Port) : Except String Shape :=
  match op with
  | .Input name =>
      match inputSpecs name with
      | some spec => .ok spec.shape
      | none => .error ("Missing input spec for " ++ name)
  | .Constant values => .ok ⟨[Dim.Static values.length]⟩
  | .Add | .Sub | .Mul | .Div | .Min | .Max | .Pow =>
      match inputs with
      | [a, b] => broadcastShapes a b
      | [a] => .ok a
      | _ => .error "Binary op expects 1 or 2 inputs"
  | .Sin | .Abs | .Sqrt | .Square | .Exp | .Log | .Output _ =>
      match inputs with
      | [] => .error "Unary/Output op requires at least 1 input"
      | s :: _ => .ok s
  | .Reshape newShape => .ok ⟨newShape⟩
  | .Transpose perm =>
      match inputs with
      | [] => .error "Transpose requires 1 input"
      | s :: _ =>
          if s.dims.length ≠ perm.length then
            .error "Transpose permutation length does not match input rank"
          else
            match collectDims (perm.map (fun a =>
              if a < s.dims.length then .ok (s.dims.getD a (Dim.Static 0))
              else .error "Transpose axis out of bounds")) with
            | .error e => .error e
            | .ok ds => .ok ⟨ds⟩
  | .ReduceSum axis =>
      match inputs with
      | [] => .error "ReduceSum requires 1 input"
      | s :: _ =>
          if s.dims.length ≤ axis then .error "ReduceSum axis out of bounds"
          else .ok ⟨s.dims.eraseIdx axis⟩
  | .Split axis parts =>
      match inputs with
      | [] => .error "Split requires 1 input"
      | s :: _ =>
          if s.dims.length ≤ axis then .error "Split axis out of bounds"
          else
            match s.dims.getD axis (Dim.Static 0) with
            | .Static val =>
                if val % parts ≠ 0 then .error "Dimension size not divisible by parts"
                else .ok ⟨s.dims.set axis (Dim.Static (val / parts))⟩
            | .Variable name =>
                .ok ⟨s.dims.set axis (Dim.Variable ("(" ++ name ++ " / " ++ toString parts ++ ")"))⟩
  | .MatMul =>
      match inputs with
      | [a, b] =>
          if a.dims.length < 2 ∨ b.dims.length < 2 then
            .error "MatMul requires inputs with at least 2 dimensions"
          else
            let m := a.dims.getD (a.dims.length - 2) (Dim.Static 0)
            let ka := a.dims.getD (a.dims.length - 1) (Dim.Static 0)
            let kb := b.dims.getD (b.dims.length - 2) (Dim.Static 0)
            let n := b.dims.getD (b.dims.length - 1) (Dim.Static 0)
            let contConsistent :=
              match broadcastShapes ⟨a.dims.take (a.dims.length - 2)⟩ ⟨b.dims.take (b.dims.length - 2)⟩ with
              | .error e => Except.error e
              | .ok bs => Except.ok (Shape.mk (bs.dims ++ [m, n]))
            match ka, kb with
            | .Static v1, .Static v2 =>
                if v1 ≠ v2 then .error "Incompatible dimensions for MatMul" else contConsistent
            | _, _ => contConsistent
      | _ => .error "MatMul requires exactly 2 inputs"

/-- `InputConnection` from `src/linearizer/ir.rs`. -/
structure InputConnection where
  node_id : String
  src_port : String
  shape : Shape
deriving DecidableEq, Repr

/-- A resolved node together with its incoming connections already gathered in
destination-port order, i.e. exactly what the loop body of `linearize` in
`src/linearizer/mod.rs` reads for one element of the toposort order. -/
structure ResolvedNodeL where
  id : String
  op : Op
  shape : Shape
  dtype : DataType
  inputs : List InputConnection

/-- `LinearNode` from `src/linearizer/ir.rs`. -/
structure LinearNode where
  id : String
  op : Op
  inputs : List InputConnection
  shape : Shape
  dtype : DataType
  offset : Nat

/-- True exactly when the op matches `Op::Input { .. }`. -/
def Op.isInput : Op → Bool
  | .Input _ => true
  | _ => false

/-- True exactly when the op matches `Op::Output { .. }`. -/
def Op.isOutput : Op → Bool
  | .Output _ => true
  | _ => false

/-- The offset-assignment loop of `linearize` in `src/linearizer/mod.rs`
(lines 15-57), applied to the topologically ordered node list: `Input` nodes
get offset 0 and do not advance the counter, `Output` nodes get the current
counter without advancing it, `Split` advances it by `parts`, every other node
by 1. -/
def linearize (ordered : List ResolvedNodeL) : List LinearNode :=
  (ordered.foldl (fun (acc : List LinearNode × Nat) node =>
    let currentOffset := acc.2
    if node.op.isInput then
      (acc.1 ++ [⟨node.id, node.op, node.inputs, node.shape, node.dtype, 0⟩], currentOffset)
    else
      let bump : Nat :=
        if node.op.isOutput then 0
        else match node.op with
          | .Split _ parts => parts
          | _ => 1
      (acc.1 ++ [⟨node.id, node.op, node.inputs, node.shape, node.dtype, currentOffset⟩],
        currentOffset + bump)) ([], 0)).1

/-- `WorkspaceSlot` (declared in `src/core/types.rs`, consumed by the
linker). -/
structure WorkspaceSlot where
  shape : Shape
  dtype : DataType
deriving DecidableEq, Repr

/-- `LinearIR::get_workspace_slots` from `src/linearizer/ir.rs`: one slot per
node that is neither `Input` nor `Output`, carrying that node's shape. -/
def getWorkspaceSlots (nodes : List LinearNode) : List WorkspaceSlot :=
  (nodes.filter (fun n => !(n.op.isInput || n.op.isOutput))).map
    (fun n => ⟨n.shape, n.dtype⟩)

/-- Modelled from the spec: `crate::core::utils::sanitize_id` is used by
`src/codegen/mod.rs` and `src/linker/mod.rs` but `src/core/utils.rs` is not
under `src/`; §4.8 fixes it as replacing `/` and `.` with `_`. -/
def sanitizeId (id : String) : String :=
  String.mk (id.data.map (fun c => if c = '/' ∨ c = '.' then '_' else c))

/-- `get_input_var` from `src/codegen/mod.rs` (lines 282-299): inputs named
`inputs.<n>` become the function argument `in_<n>`, otherwise the sanitized
producer id; a numeric source port `idx > 0` selects the `idx`-th tile. -/
def getInputVar (input : InputConnection) : String :=
  let base :=
    if strStartsWith input.node_id "inputs." then
      "in_" ++ sanitizeId (strDrop input.node_id 7)
    else
      sanitizeId input.node_id
  match parseNat input.src_port with
  | some idx =>
      if 0 < idx then
        "(" ++ base ++ " + " ++ toString idx ++ " * (" ++ input.shape.toCSizeExpr ++ "))"
      else base
  | none => base

/-- The `op_sym` match inside `emit_node_code` in `src/codegen/mod.rs`
(lines 108-114). -/
def opSym : Op → String
  | .Add => "+"
  | .Sub => "-"
  | .Mul => "*"
  | .Div => "/"
  | _ => ""

/-- The elementwise-binary arm of `emit_node_code` in `src/codegen/mod.rs`
(lines 105-139), producing the emitted C text for one
`Add/Sub/Mul/Div/Min/Max/Pow` node.  Braces in the templates are written with
their hex escapes. -/
def emitBinaryOpCode (node : LinearNode) : String :=
  let left := getInputVar (node.inputs.getD 0 ⟨"", "", ⟨[]⟩⟩)
  let right := getInputVar (node.inputs.getD 1 ⟨"", "", ⟨[]⟩⟩)
  let nodeVar := sanitizeId node.id
  let sizeExpr := node.shape.toCSizeExpr
  let sym := opSym node.op
  let pragma := "    #pragma omp parallel for simd\n"
  if sym ≠ "" then
    let line := "    for (int i = 0; i < SIZE; i++) \x7b VAR[i] = LEFT[i] SYM RIGHT[i]; \x7d\n"
    let line := strReplaceAll line "SIZE" sizeExpr
    let line := strReplaceAll line "VAR" nodeVar
    let line := strReplaceAll line "LEFT" left
    let line := strReplaceAll line "SYM" sym
    let line := strReplaceAll line "RIGHT" right
    pragma ++ line
  else
    let func : String :=
      match node.op with
      | .Min => "fminf"
      | .Max => "fmaxf"
      | .Pow => "powf"
      | _ => ""
    let line := "    for (int i = 0; i < SIZE; i++) \x7b VAR[i] = FUNC (LEFT[i], RIGHT[i]); \x7d\n"
    let line := strReplaceAll line "SIZE" sizeExpr
    let line := strReplaceAll line "VAR" nodeVar
    let line := strReplaceAll line "FUNC" func
    let line := strReplaceAll line "LEFT" left
    let line := strReplaceAll line "RIGHT" right
    pragma ++ line

/-- The `Op::Split` arm of `emit_node_code` in `src/codegen/mod.rs`
(lines 223-231): a flat copy over `SIZE * PARTS` elements. -/
def emitSplitCode (node : LinearNode) : String :=
  let src := getInputVar (node.inputs.getD 0 ⟨"", "", ⟨[]⟩⟩)
  let parts : Nat :=
    match node.op with
    | .Split _ p => p
    | _ => 0
  let line := "    #pragma omp parallel for simd\n    for (int i = 0; i < SIZE * PARTS; i++) \x7b VAR[i] = SRC[i]; \x7d\n"
  let line := strReplaceAll line "SIZE" node.shape.toCSizeExpr
  let line := strReplaceAll line "PARTS" (toString parts)
  let line := strReplaceAll line "VAR" (sanitizeId node.id)
  let line := strReplaceAll line "SRC" src
  line

end SionFlowRT

namespace SionFlowRT.Legacy

/-- `Dimension` from the draft `src/model.rs`: concrete value, named symbol,
or a binary arithmetic node. -/
inductive Dimension where
  | Value (v : Nat)
  | Symbol (s : String)
  | AddD (l r : Dimension)
  | SubD (l r : Dimension)
  | MulD (l r : Dimension)
  | DivD (l r : Dimension)
deriving DecidableEq, Repr

/-- The `fmt::Display` impl for `Dimension` in `src/model.rs`. -/
def Dimension.display : Dimension → String
  | .Value v => toString v
  | .Symbol s => s
  | .AddD l r => "(" ++ l.display ++ " + " ++ r.display ++ ")"
  | .SubD l r => "(" ++ l.display ++ " - " ++ r.display ++ ")"
  | .MulD l r => "(" ++ l.display ++ " * " ++ r.display ++ ")"
  | .DivD l r => "(" ++ l.display ++ " / " ++ r.display ++ ")"

/-- Modelled from the spec: `Dimension::is_wildcard` is called by
`src/shape_engine.rs` but its impl is not under `src/`; §3 defines the
wildcard as the symbol `_`. -/
def Dimension.isWildcard : Dimension → Bool
  | .Symbol s => s == "_"
  | _ => false

/-- Modelled from the spec: `Dimension::is_ellipsis` is called by
`src/shape_engine.rs` but its impl is not under `src/`; §3 defines the
ellipsis as the symbol `...`. -/
def Dimension.isEllipsis : Dimension → Bool
  | .Symbol s => s == "..."
  | _ => false

/-- `TensorShape` from the draft `src/model.rs`. -/
structure TensorShape where
  dims : List Dimension
deriving DecidableEq, Repr

/-- `ShapeEngine::unify_dims` from `src/shape_engine.rs` (lines 64-78).  The
source's or-pattern arm `(Value(1), other) | (other, Value(1)) => Ok(other)`
is written as the two `Value 1` tests, and its guarded
`(Value(a), Value(b)) if a != b` arm plus the final catch-all `_ => Ok(d1)`
as the trailing match. -/
def unifyDims (d1 d2 : Dimension) : Except String Dimension :=
  if d1 = d2 then .ok d1
  else if d1.isWildcard then .ok d2
  else if d2.isWildcard then .ok d1
  else if d1 = .Value 1 then .ok d2
  else if d2 = .Value 1 then .ok d1
  else
    match d1, d2 with
    | .Value a, .Value b =>
        if a ≠ b then
          .error ("Incompatible fixed dimensions: " ++ toString a ++ " and " ++ toString b)
        else .ok d1
    | _, _ => .ok d1

/-- `Vec::iter().position(..)` for the ellipsis search in
`expand_ellipsis_from_target`. -/
def firstIdx (p : Dimension → Bool) : List Dimension → Option Nat
  | [] => none
  | d :: ds => if p d then some 0 else (firstIdx p ds).map (· + 1)

/-- `ShapeEngine::expand_ellipsis_from_target` from `src/shape_engine.rs`
(lines 81-104). -/
def expandEllipsisFromTarget (dims target : List Dimension) : List Dimension :=
  match firstIdx Dimension.isEllipsis dims with
  | none => dims
  | some pos =>
      let before := dims.take pos
      let afterCount := dims.length - 1 - pos
      let needed := target.length - afterCount - pos
      let middle := (List.range needed).map (fun i => target.getD (pos + i) (Dimension.Value 1))
      before ++ middle ++ dims.drop (pos + 1)

/-- The back-to-front while loop of `ShapeEngine::unify` (lines 41-58),
consuming both dim lists reversed; the source's `res.reverse()` is applied
by the caller.  Once one side is exhausted the loop copies the remaining
dims of the other side unchanged (the `(Some(a), None) | (None, Some(a))`
arm), which is the whole remainder at once. -/
def unifyGo : List Dimension → List Dimension → Except String (List Dimension)
  | [], ys => .ok ys
  | xs, [] => .ok xs
  | x :: xs, y :: ys =>
      match unifyDims x y with
      | .error e => .error e
      | .ok d =>
          match unifyGo xs ys with
          | .error e => .error e
          | .ok ds => .ok (d :: ds)

/-- `ShapeEngine::unify` from `src/shape_engine.rs` (lines 36-62): expand
ellipses against the other side, then walk both shapes from the back. -/
def unify (s1 s2 : TensorShape) : Except String TensorShape :=
  let d1 := expandEllipsisFromTarget s1.dims s2.dims
  let d2 := expandEllipsisFromTarget s2.dims d1
  match unifyGo d1.reverse d2.reverse with
  | .error e => .error e
  | .ok res => .ok ⟨res.reverse⟩

/-- The right-to-left stride loop of `TensorShape::default_strides_c_expr`
in `src/model.rs` (lines 51-59), returning the strides for a suffix of dims
together with the accumulated product string. -/
def defaultStridesAux : List Dimension → List String × String
  | [] => ([], "1")
  | d :: rest =>
      let (strs, cur) := defaultStridesAux rest
      (cur :: strs, cur ++ " * (" ++ d.display ++ ")")

/-- `TensorShape::default_strides_c_expr` from `src/model.rs`: row-major
default strides, last dim stride `"1"`, multiplying outward. -/
def defaultStridesCExpr (dims : List Dimension) : List String :=
  (defaultStridesAux dims).1

/-- `generate_index_expr` from the draft `src/codegen_c.rs` (lines 408-429):
index of a producer inside the consumer loop, skipping (stride zero) every
producer dim that is `Value(1)`; strides are the producer's row-major
defaults. -/
def generateIndexExpr (nodeShape : List Dimension) (targetRank : Nat) : String :=
  let strides := defaultStridesCExpr nodeShape
  let parts := (List.range nodeShape.length).filterMap (fun d =>
    if d < targetRank then
      if nodeShape.getD d (Dimension.Value 1) = Dimension.Value 1 then none
      else some ("i" ++ toString d ++ " * (" ++ strides.getD d "1" ++ ")")
    else none)
  if parts.isEmpty then "0" else joinSep " + " parts

/-- The `Op::ReduceSum` arm of `infer_node_shape` in the draft
`src/linear_passes.rs` (lines 89-95): `axis` is an `isize`, a negative axis
counts from the back, and an empty result is promoted to `[Value 1]`.
(The source computes `(len as isize + axis) as usize`; when that sum is
negative the `as usize` cast wraps to a value at least `2^63`, which then
fails the `< len` bound, i.e. no dim is removed — modelled by the explicit
negativity test.) -/
def legacyInferReduceSum (axis : Int) (dims : List Dimension) : List Dimension :=
  let len := dims.length
  let removed :=
    if 0 ≤ axis then
      if axis.toNat < len then dims.eraseIdx axis.toNat else dims
    else if 0 ≤ (len : Int) + axis then
      if ((len : Int) + axis).toNat < len then dims.eraseIdx ((len : Int) + axis).toNat else dims
    else dims
  if removed.isEmpty then [Dimension.Value 1] else removed

/-- `sanitize_id` from the draft `src/model.rs` (replaces `/` with `__`). -/
def legacySanitizeId (id : String) : String :=
  strReplaceAll id "/" "__"

/-- The `Div` C-body template from the `define_ops!` invocation in the draft
`src/model.rs` (line 201): division guards the divisor with `+ 1e-9f`. -/
def divTemplate : String := "\x7b\x7d / (\x7b\x7d + 1e-9f)"

/-- The buffer accessor closure `buf` inside `Op::generate_c_body` in
`src/model.rs`. -/
def legacyBuf (progId id idx : String) : String :=
  "buffer_" ++ progId ++ "_" ++ legacySanitizeId id ++ "[" ++ idx ++ "]"

/-- The binary arm of `Op::generate_c_body` in the draft `src/model.rs`
(lines 173-178): substitute the two operand accesses into the op's template
and assign to the target. -/
def legacyBinaryBody (tmpl progId nodeId targetIdx left leftIdx right rightIdx : String) : String :=
  let lVal := legacyBuf progId left leftIdx
  let rVal := legacyBuf progId right rightIdx
  let expr := strReplaceFirst (strReplaceFirst tmpl "\x7b\x7d" lVal) "\x7b\x7d" rVal
  legacyBuf progId nodeId targetIdx ++ " = " ++ expr ++ ";"

end SionFlowRT.Legacy

namespace SionFlowRT

/-- `Resource` from `src/analyzer/mod.rs`. -/
structure Resource where
  shape : Shape
  dtype : DataType
deriving DecidableEq, Repr

/-- Modelled from the spec: `templates/runtime.c.tera` is not under `src/`;
§4.9 prescribes "Definitions of per-resource buffers sized by their resolved
element counts", rendered in the order the linker supplies the entries.
Each entry is (sanitized id, C type, size expression). -/
def renderResourceDefs (entries : List (String × String × String)) : String :=
  String.join (entries.map (fun e => e.2.1 ++ " resource_" ++ e.1 ++ "[" ++ e.2.2 ++ "];\n"))

/-- The resource block of `generate_runtime_c` in `src/linker/mod.rs`
(lines 88-96): the entries are pushed while iterating `plan.resources`
(a `HashMap`), so the argument list is the map's iteration order. -/
def resourcesSection (iter : List (String × Resource)) : String :=
  renderResourceDefs (iter.map (fun r => (sanitizeId r.1, r.2.dtype.toCType, r.2.shape.toCSizeExpr)))

/-- The per-input argument search of `generate_runtime_c` in
`src/linker/mod.rs` (lines 125-139): scan `plan.links` in order for the first
link whose destination is `<progId>.<name>`; a `sources.*` source becomes a
resource pointer, another program port becomes that program's output buffer,
and when no link matches the literal `NULL` is pushed. -/
def callArgForInput (links : List (String × String)) (progId name : String) : List String :=
  match links.find? (fun l => l.2 == progId ++ "." ++ name) with
  | none => ["NULL"]
  | some (src, _) =>
      if strStartsWith src "sources." then
        ["resource_" ++ sanitizeId (strDrop src 8)]
      else
        match splitOnce src '.' with
        | some (p, port) => ["buf_" ++ sanitizeId p ++ "_" ++ sanitizeId port]
        | none => []

/-- The full input-argument list of one program's `execute_all` call:
`in_names` is the lexicographically sorted input-name list built by the
linker. -/
def buildCallArgs (links : List (String × String)) (progId : String) (inNames : List String) : List String :=
  inNames.flatMap (callArgForInput links progId)

/-- The import-prefix substitution of `inline_recursive_graph` in
`src/inliner/mod.rs` (lines 91-99): the first import whose key prefixes the
path is substituted (Rust's `str::replace`, all occurrences); with no match
the path is used verbatim — there is no unknown-prefix error. -/
def substituteImports (imports : List (String × String)) (path : String) : String :=
  match imports.find? (fun kv => strStartsWith path kv.1) with
  | some (k, v) => strReplaceAll path k v
  | none => path

/-- A graph file as the inliner's recursion sees it: the sub-graph paths of
its `subgraph` node defs, in node order (primitive nodes do not recurse). -/
structure GraphDefM where
  subs : List String

/-- Outcome of one `inline_recursive` call in the fuel model: success, the
structured "Failed to read" error of `src/inliner/mod.rs` lines 65-66, or
fuel exhaustion (the source has no fuel — exhaustion models one more level of
unbounded recursion). -/
inductive InlineOutcome where
  | ok
  | readErr (path : String)
  | fuelOut
deriving DecidableEq, Repr

/-- Sequencing of the per-node recursive calls inside
`inline_recursive_graph`'s node loop: the first non-success outcome aborts
(errors propagate via `?`; a call that never returns prevents the rest from
running). -/
def runSeq : List InlineOutcome → InlineOutcome
  | [] => .ok
  | r :: rest =>
      match r with
      | .ok => runSeq rest
      | e => e

/-- `inline_recursive` from `src/inliner/mod.rs` (lines 58-69) together with
the sub-graph recursion of `inline_recursive_graph` (lines 87-115), with an
explicit fuel for the call depth: read the file (missing → structured error),
then inline each referenced sub-graph in order.  The source performs this
recursion with no visited set and no depth bound. -/
def inlineRec (fs : String → Option GraphDefM) : Nat → String → InlineOutcome
  | 0, _ => .fuelOut
  | n + 1, path =>
      match fs path with
      | none => .readErr path
      | some g => runSeq (g.subs.map (fun p => inlineRec fs n p))

/-- A file system with a single graph file `a.json` whose only node
references `a.json` itself: the minimal reference cycle. -/
def cycFS : String → Option GraphDefM :=
  fun p => if p = "a.json" then some ⟨["a.json"]⟩ else none

end SionFlowRT

namespace SionFlowRT

/-- Spec-side predicate for claim C5: right-aligned dims are compatible when
equal or when at least one is 1. -/
def compatAll : List Nat → List Nat → Bool
  | [], [] => true
  | a :: as_, b :: bs => (a == b || a == 1 || b == 1) && compatAll as_ bs
  | _, _ => false

/-- Spec-side value of one broadcast dim as the code computes it: the other
dim when one side is 1, the common value when equal. -/
def bcastNat (a b : Nat) : Nat :=
  if a = 1 then b else a

/-- Spec-side left padding with 1s to length `m`. -/
def padNat (m : Nat) (l : List Nat) : List Nat :=
  List.replicate (m - l.length) 1 ++ l

end SionFlowRT

namespace SionFlowRT

/-- Projection of an `Except` onto its success value, for statements that
compare results "when both succeed" (error messages carry the offending
values and are order-dependent). -/
def okValue {ε α : Type} : Except ε α → Option α
  | .ok a => some a
  | .error _ => none

/-- Concrete program for claim C2, in topological order: `x : [4]` is split
into 2 parts, the first tile goes through `Sin` to the output.  The shapes
are the resolver's results (`Split` on `[4]` with 2 parts yields the tile
shape `[2]`). -/
def c2Nodes : List ResolvedNodeL :=
  [⟨"inputs.x", .Input "x", ⟨[Dim.Static 4]⟩, .F32, []⟩,
   ⟨"split", .Split 0 2, ⟨[Dim.Static 2]⟩, .F32, [⟨"inputs.x", "output", ⟨[Dim.Static 4]⟩⟩]⟩,
   ⟨"sin", .Sin, ⟨[Dim.Static 2]⟩, .F32, [⟨"split", "0", ⟨[Dim.Static 2]⟩⟩]⟩,
   ⟨"outputs.y", .Output "y", ⟨[Dim.Static 2]⟩, .F32, [⟨"sin", "output", ⟨[Dim.Static 2]⟩⟩]⟩]

/-- The `Split` node of `c2Nodes` as the linearizer emits it (offset 0). -/
def c2SplitNode : LinearNode :=
  ⟨"split", .Split 0 2, [⟨"inputs.x", "output", ⟨[Dim.Static 4]⟩⟩], ⟨[Dim.Static 2]⟩, .F32, 0⟩

/-- Concrete `Div` linear node for claim C4: `y = a / b` over 4 elements. -/
def c4DivNode : LinearNode :=
  ⟨"y", .Div, [⟨"a", "output", ⟨[Dim.Static 4]⟩⟩, ⟨"b", "output", ⟨[Dim.Static 4]⟩⟩],
   ⟨[Dim.Static 4]⟩, .F32, 2⟩

/-- Concrete `Add` linear node for claim C8: consumer shape `[2,3]`, second
producer shape `[1,3]` (a broadcast along the first dim). -/
def c8AddNode : LinearNode :=
  ⟨"c", .Add, [⟨"a", "output", ⟨[Dim.Static 2, Dim.Static 3]⟩⟩,
               ⟨"b", "output", ⟨[Dim.Static 1, Dim.Static 3]⟩⟩],
   ⟨[Dim.Static 2, Dim.Static 3]⟩, .F32, 0⟩

end SionFlowRT

namespace SionFlowRT

theorem inlineRec_cycFS_fuelOut (n : Nat) : inlineRec cycFS n "a.json" = InlineOutcome.fuelOut := by
  induction n with
  | zero => rfl
  | succ n ih => simp [inlineRec, cycFS, runSeq, ih]

/-- Claim C1: the runtime emitter's resource section is a function of the
`HashMap` iteration order, so two compiler runs over the same project plan
(the same association list up to permutation) can produce different bytes in
`generated/runtime.c` — the determinism contract does not hold; identifiers
in this section are not sorted at all. -/
theorem C1_runtime_resource_order_dependent :
    resourcesSection [("alpha", ⟨⟨[Dim.Static 2]⟩, DataType.F32⟩), ("beta", ⟨⟨[Dim.Static 3]⟩, DataType.F32⟩)] ≠
      resourcesSection [("beta", ⟨⟨[Dim.Static 3]⟩, DataType.F32⟩), ("alpha", ⟨⟨[Dim.Static 2]⟩, DataType.F32⟩)] ∧
    List.Perm
      [("alpha", (⟨⟨[Dim.Static 2]⟩, DataType.F32⟩ : Resource)), ("beta", ⟨⟨[Dim.Static 3]⟩, DataType.F32⟩)]
      [("beta", ⟨⟨[Dim.Static 3]⟩, DataType.F32⟩), ("alpha", ⟨⟨[Dim.Static 2]⟩, DataType.F32⟩)] :=
  ⟨by decide, List.Perm.swap _ _ _⟩

/-- Claim C2: on the program `x:[4] → Split(parts 2) → Sin → y`, `linearize`
gives the `Sin` node offset 2 while `get_workspace_slots` reports only 2
slots, so its offset plus extent (one slot) exceeds the reported workspace
size; moreover the `Split` slot's size expression is one tile (`"2"`) while
the emitted `Split` kernel writes over `2 * 2` elements. -/
theorem C2_split_offset_exceeds_reported_slots :
    (linearize c2Nodes).map (fun n => (n.id, n.offset)) =
      [("inputs.x", 0), ("split", 0), ("sin", 2), ("outputs.y", 3)] ∧
    (getWorkspaceSlots (linearize c2Nodes)).length = 2 ∧
    ¬ (2 + 1 ≤ 2) ∧
    (getWorkspaceSlots (linearize c2Nodes)).map (fun s => s.shape.toCSizeExpr) = ["2", "2"] ∧
    inferShape (.Split 0 2) [⟨[Dim.Static 4]⟩] (fun _ => none) = .ok ⟨[Dim.Static 2]⟩ ∧
    emitSplitCode c2SplitNode =
      "    #pragma omp parallel for simd\n    for (int i = 0; i < 2 * 2; i++) \x7b split[i] = in_x[i]; \x7d\n" :=
  ⟨by decide, by decide, by decide, by decide, rfl, rfl⟩

/-- Claim C3: the active resolver removes the `usize` axis with no rank-0
promotion — `ReduceSum{axis 0}` on `[3]` yields the empty shape, not `[1]` —
and `Op::from_json` parses a negative axis as the default 0 (`as_u64` fails
on negatives); the draft shape inferencer (`linear_passes.rs`) implements the
claimed rule (negative axis from the back, empty result promoted to
`[Value 1]`). -/
theorem C3_reduce_sum_negative_axis_and_promotion_missing :
    inferShape (.ReduceSum 0) [⟨[Dim.Static 3]⟩] (fun _ => none) = .ok ⟨[]⟩ ∧
    (Shape.mk [] ≠ Shape.mk [Dim.Static 1]) ∧
    reduceSumAxisFromJson (some (-1)) = 0 ∧
    Legacy.legacyInferReduceSum (-1) [Legacy.Dimension.Value 2, Legacy.Dimension.Value 3] =
      [Legacy.Dimension.Value 2] ∧
    Legacy.legacyInferReduceSum 0 [Legacy.Dimension.Value 3] = [Legacy.Dimension.Value 1] :=
  ⟨rfl, by decide, by decide, by decide, by decide⟩

/-- Claim C4: the active emitter's kernel for a `Div` node divides by the raw
divisor (`y[i] = a[i] / b[i]`, no `1e-9` anywhere in the emitted text); the
`divisor + 1e-9f` guard exists only in the draft emitter's `Div` template in
`model.rs`. -/
theorem C4_div_emits_raw_divisor :
    emitBinaryOpCode c4DivNode =
      "    #pragma omp parallel for simd\n    for (int i = 0; i < 4; i++) \x7b y[i] = a[i] / b[i]; \x7d\n" ∧
    containsSub (emitBinaryOpCode c4DivNode) "1e-9" = false ∧
    Legacy.legacyBinaryBody Legacy.divTemplate "p" "y" "i" "a" "i" "b" "i" =
      "buffer_p_y[i] = buffer_p_a[i] / (buffer_p_b[i] + 1e-9f);" :=
  ⟨rfl, rfl, rfl⟩

/-- Claim C8: the active emitter indexes both binary operands with the flat
loop index `i` (so the producer of shape `[1,3]` is read at `b[i]` for `i`
up to `2 * 3`), with no stride-zero adjustment; the draft emitter implements
the claimed rule — row-major default strides (`["1 * (3)", "1"]` for
`[1,3]`) and omission (stride zero) of the size-1 dim's term, giving the
index `i1 * (1)`. -/
theorem C8_no_broadcast_indexing_in_active_emitter :
    emitBinaryOpCode c8AddNode =
      "    #pragma omp parallel for simd\n    for (int i = 0; i < 2 * 3; i++) \x7b c[i] = a[i] + b[i]; \x7d\n" ∧
    Legacy.defaultStridesCExpr [Legacy.Dimension.Value 1, Legacy.Dimension.Value 3] = ["1 * (3)", "1"] ∧
    Legacy.generateIndexExpr [Legacy.Dimension.Value 1, Legacy.Dimension.Value 3] 2 = "i1 * (1)" ∧
    Legacy.generateIndexExpr [Legacy.Dimension.Value 2, Legacy.Dimension.Value 3] 2 =
      "i0 * (1 * (3)) + i1 * (1)" :=
  ⟨rfl, rfl, rfl, rfl⟩

/-- Claim C9: the inliner has no cycle detection — on the self-referential
graph file the recursion exhausts any amount of fuel without ever producing a
structured error; a missing file does yield the structured read error, and an
prefix of an import matching no declared import is used verbatim (no
error). -/
theorem C9_inliner_cycle_never_errors :
    (∀ fuel, inlineRec cycFS fuel "a.json" = InlineOutcome.fuelOut) ∧
    (∀ (fs : String → Option GraphDefM) (path : String) (fuel : Nat),
      fs path = none → inlineRec fs (fuel + 1) path = InlineOutcome.readErr path) ∧
    (∀ (imports : List (String × String)) (path : String),
      imports.find? (fun kv => strStartsWith path kv.1) = none →
        substituteImports imports path = path) := by
  refine ⟨inlineRec_cycFS_fuelOut, ?_, ?_⟩
  · intro fs path fuel h
    simp [inlineRec, h]
  · intro imports path h
    simp [substituteImports, h]

theorem C9_witness :
    inlineRec cycFS 7 "a.json" = InlineOutcome.fuelOut ∧
    inlineRec (fun _ => none) (0 + 1) "g.json" = InlineOutcome.readErr "g.json" ∧
    substituteImports [("lib/", "stdlib/")] "unknown/g.json" = "unknown/g.json" :=
  ⟨C9_inliner_cycle_never_errors.1 7,
   C9_inliner_cycle_never_errors.2.1 (fun _ => none) "g.json" 0 rfl,
   C9_inliner_cycle_never_errors.2.2 [("lib/", "stdlib/")] "unknown/g.json" (by decide)⟩

/-- Claim C10: when no manifest link has the program's input port as its
destination, the runtime emitter pushes the literal `NULL` as that call
argument (the emitter returns plain strings; there is no error path). -/
theorem C10_unbound_input_becomes_null (links : List (String × String)) (progId name : String)
    (h : ∀ l ∈ links, l.2 ≠ progId ++ "." ++ name) :
    callArgForInput links progId name = ["NULL"] := by
  have hnone : links.find? (fun l => l.2 == progId ++ "." ++ name) = none := by
    rw [List.find?_eq_none]
    intro x hx
    simpa using h x hx
  simp [callArgForInput, hnone]

theorem C10_witness :
    callArgForInput [("sources.camera", "renderer.frame")] "renderer" "missing" = ["NULL"] :=
  C10_unbound_input_becomes_null [("sources.camera", "renderer.frame")] "renderer" "missing"
    (by decide)

end SionFlowRT

namespace SionFlowRT

theorem broadcastDim_static_ok (a b : Nat) (h : a = b ∨ a = 1 ∨ b = 1) :
    broadcastDim (.Static a) (.Static b) = .ok (.Static (bcastNat a b)) := by
  rcases h with h | h | h
  · subst h
    simp [broadcastDim, bcastNat]
  · subst h
    by_cases hb : (1 : Nat) = b
    · subst hb
      simp [broadcastDim, bcastNat]
    · simp [broadcastDim, bcastNat, hb]
  · subst h
    by_cases ha : a = 1
    · subst ha
      simp [broadcastDim, bcastNat]
    · simp [broadcastDim, bcastNat, ha]

theorem broadcastDim_static_err (a b : Nat) (h : ¬(a = b ∨ a = 1 ∨ b = 1)) :
    broadcastDim (.Static a) (.Static b) =
      .error ("Shape mismatch for broadcast: " ++ toString a ++ " and " ++ toString b) := by
  push_neg at h
  obtain ⟨h1, h2, h3⟩ := h
  simp [broadcastDim, h1, h2, h3]

theorem collect_static_ok (xs ys : List Nat) (h : compatAll xs ys = true) :
    collectDims (List.zipWith broadcastDim (xs.map .Static) (ys.map .Static)) =
      .ok ((List.zipWith bcastNat xs ys).map .Static) := by
  induction xs generalizing ys with
  | nil =>
    cases ys with
    | nil => rfl
    | cons b bs => simp [compatAll] at h
  | cons a as_ ih =>
    cases ys with
    | nil => simp [compatAll] at h
    | cons b bs =>
      simp only [compatAll, Bool.and_eq_true, Bool.or_eq_true, beq_iff_eq] at h
      obtain ⟨hc, hrest⟩ := h
      have hc' : a = b ∨ a = 1 ∨ b = 1 := by tauto
      rw [List.map_cons, List.map_cons, List.zipWith_cons_cons]
      simp only [collectDims]
      rw [broadcastDim_static_ok a b hc', ih bs hrest]
      rfl

theorem collect_static_compat (xs ys : List Nat) (hlen : xs.length = ys.length) :
    ∀ zs, collectDims (List.zipWith broadcastDim (xs.map .Static) (ys.map .Static)) = .ok zs →
      compatAll xs ys = true := by
  induction xs generalizing ys with
  | nil =>
    intro zs h
    cases ys with
    | nil => rfl
    | cons b bs => simp at hlen
  | cons a as_ ih =>
    intro zs h
    cases ys with
    | nil => simp at hlen
    | cons b bs =>
      by_cases hc : a = b ∨ a = 1 ∨ b = 1
      · rw [List.map_cons, List.map_cons, List.zipWith_cons_cons,
          broadcastDim_static_ok a b hc] at h
        simp only [collectDims] at h
        cases hrest : collectDims (List.zipWith broadcastDim (as_.map .Static) (bs.map .Static)) with
        | error e => rw [hrest] at h; exact absurd h (by simp)
        | ok ds =>
          rw [hrest] at h
          have := ih bs (by simpa using hlen) ds hrest
          simp [compatAll, this]
          tauto
      · rw [List.map_cons, List.map_cons, List.zipWith_cons_cons,
          broadcastDim_static_err a b hc] at h
        simp only [collectDims] at h
        exact absurd h (by simp)

theorem leftPad_map (m : Nat) (A : List Nat) :
    leftPadOnes m (A.map .Static) = (padNat m A).map .Static := by
  simp [leftPadOnes, padNat, List.map_append, List.map_replicate]

theorem padNat_length (m : Nat) (A : List Nat) (h : A.length ≤ m) :
    (padNat m A).length = m := by
  simp [padNat]
  omega

/-- Claim C5 (amended): for concrete shapes, broadcasting succeeds iff every
right-aligned pair is equal or contains a 1; the result dim is the non-1
member of the pair (the common value when equal), which equals `max(a, b)`
whenever both dims are at least 1 — but `broadcast([0],[1]) = [0]`, not
`[max 0 1]`. -/
theorem C5_broadcast_concrete (A B : List Nat) :
    ((∃ s, broadcastShapes ⟨A.map .Static⟩ ⟨B.map .Static⟩ = .ok s) ↔
      compatAll (padNat (max A.length B.length) A) (padNat (max A.length B.length) B) = true) ∧
    (compatAll (padNat (max A.length B.length) A) (padNat (max A.length B.length) B) = true →
      broadcastShapes ⟨A.map .Static⟩ ⟨B.map .Static⟩ =
        .ok ⟨(List.zipWith bcastNat (padNat (max A.length B.length) A)
              (padNat (max A.length B.length) B)).map .Static⟩) ∧
    (∀ a b : Nat, 1 ≤ a → 1 ≤ b → (a = b ∨ a = 1 ∨ b = 1) → bcastNat a b = max a b) := by
  have hpad : (padNat (max A.length B.length) A).length =
      (padNat (max A.length B.length) B).length := by
    rw [padNat_length _ _ (le_max_left _ _), padNat_length _ _ (le_max_right _ _)]
  refine ⟨⟨?_, ?_⟩, ?_, ?_⟩
  · rintro ⟨s, hs⟩
    simp only [broadcastShapes, Shape.mk.injEq, List.length_map, leftPad_map] at hs
    cases hcd : collectDims (List.zipWith broadcastDim
        ((padNat (max A.length B.length) A).map .Static)
        ((padNat (max A.length B.length) B).map .Static)) with
    | error e => rw [hcd] at hs; exact absurd hs (by simp)
    | ok ds => exact collect_static_compat _ _ hpad ds hcd
  · intro h
    have hco := collect_static_ok _ _ h
    simp only [broadcastShapes, List.length_map, leftPad_map]
    rw [hco]
    exact ⟨_, rfl⟩
  · intro h
    have hco := collect_static_ok _ _ h
    simp only [broadcastShapes, List.length_map, leftPad_map]
    rw [hco]
  · intro a b ha hb hc
    rcases hc with h | h | h
    · subst h
      simp [bcastNat, Nat.max_self]
    · subst h
      simp [bcastNat, Nat.max_eq_right hb]
    · subst h
      by_cases ha1 : a = 1
      · subst ha1; simp [bcastNat]
      · simp [bcastNat, ha1, Nat.max_eq_left ha]

theorem C5_witness :
    broadcastShapes ⟨[Dim.Static 2, Dim.Static 1]⟩ ⟨[Dim.Static 3]⟩ =
      .ok ⟨[Dim.Static 2, Dim.Static 3]⟩ :=
  (C5_broadcast_concrete [2, 1] [3]).2.1 (by decide)

/-- Claim C5 counterexample: broadcasting the concrete shapes `[0]` and `[1]`
succeeds with result `[0]`, while the claim's `max(a, b)` would give `[1]`. -/
theorem C5_counterexample :
    broadcastShapes ⟨[Dim.Static 0]⟩ ⟨[Dim.Static 1]⟩ = .ok ⟨[Dim.Static 0]⟩ ∧
    Shape.mk [Dim.Static 0] ≠ Shape.mk [Dim.Static (max 0 1)] :=
  ⟨rfl, by decide⟩

end SionFlowRT

namespace SionFlowRT.Legacy

/-- Claim C6 (amended): in both unifiers a symbolic dim unifies with a
concrete dim unconditionally — neither `unify_dims` nor `broadcast_shapes`
receives the manifest parameters at all.  `unify_dims` returns the left-hand
dim (a concrete right-hand 1 also yields the left-hand dim), and two symbolic
dims unify into the left-hand one whether or not they share a name;
`broadcast_shapes` returns the symbolic dim. -/
theorem C6_symbolic_unifies_unconditionally (n m : String) (v : Nat) (hn : n ≠ "_") :
    unifyDims (.Symbol n) (.Value v) = .ok (.Symbol n) ∧
    unifyDims (.Symbol n) (.Symbol m) = .ok (.Symbol n) ∧
    SionFlowRT.broadcastDim (SionFlowRT.Dim.Variable n) (SionFlowRT.Dim.Static v) =
      .ok (SionFlowRT.Dim.Variable n) ∧
    SionFlowRT.broadcastDim (SionFlowRT.Dim.Variable n) (SionFlowRT.Dim.Variable m) =
      .ok (SionFlowRT.Dim.Variable n) := by
  refine ⟨?_, ?_, rfl, rfl⟩
  · simp [unifyDims, Dimension.isWildcard, hn]
  · by_cases hm : n = m
    · subst hm
      simp [unifyDims]
    · by_cases hw : m = "_"
      · subst hw
        simp [unifyDims, Dimension.isWildcard, hn, hm]
      · simp [unifyDims, Dimension.isWildcard, hn, hm, hw]

theorem C6_witness :
    (unifyDims (.Symbol "M") (.Value 9) = .ok (.Symbol "M") ∧
     unifyDims (.Symbol "M") (.Symbol "K") = .ok (.Symbol "M") ∧
     SionFlowRT.broadcastDim (SionFlowRT.Dim.Variable "M") (SionFlowRT.Dim.Static 9) =
       .ok (SionFlowRT.Dim.Variable "M") ∧
     SionFlowRT.broadcastDim (SionFlowRT.Dim.Variable "M") (SionFlowRT.Dim.Variable "K") =
       .ok (SionFlowRT.Dim.Variable "M")) :=
  C6_symbolic_unifies_unconditionally "M" "K" 9 (by decide)

/-- Claim C6 counterexample: the symbol `N` unifies with the concrete dims 5
and 7 alike, and `broadcast_shapes` likewise accepts `N` against 5 — the
functions take no manifest parameters, so success cannot depend on `N` being
bound to "exactly that concrete value". -/
theorem C6_counterexample :
    unifyDims (.Symbol "N") (.Value 5) = .ok (.Symbol "N") ∧
    unifyDims (.Symbol "N") (.Value 7) = .ok (.Symbol "N") ∧
    SionFlowRT.broadcastDim (SionFlowRT.Dim.Variable "N") (SionFlowRT.Dim.Static 5) =
      .ok (SionFlowRT.Dim.Variable "N") :=
  ⟨rfl, rfl, rfl⟩

theorem unifyDims_value_okValue_comm (a b : Nat) :
    SionFlowRT.okValue (unifyDims (.Value a) (.Value b)) =
    SionFlowRT.okValue (unifyDims (.Value b) (.Value a)) := by
  by_cases hab : a = b
  · subst hab; rfl
  · by_cases ha : a = 1
    · subst ha
      simp [unifyDims, Dimension.isWildcard, hab, Ne.symm hab, SionFlowRT.okValue]
    · by_cases hb : b = 1
      · subst hb
        simp [unifyDims, Dimension.isWildcard, hab, Ne.symm hab, ha, SionFlowRT.okValue]
      · simp [unifyDims, Dimension.isWildcard, hab, Ne.symm hab, ha, hb, SionFlowRT.okValue]

theorem okValue_consMap (d : Dimension) (x y : Except String (List Dimension))
    (h : SionFlowRT.okValue x = SionFlowRT.okValue y) :
    SionFlowRT.okValue (match x with
      | .error e => (.error e : Except String (List Dimension))
      | .ok ds => .ok (d :: ds)) =
    SionFlowRT.okValue (match y with
      | .error e => (.error e : Except String (List Dimension))
      | .ok ds => .ok (d :: ds)) := by
  cases x <;> cases y <;> simp [SionFlowRT.okValue] at h ⊢ <;> simp [h]

theorem unifyGo_value_comm (as_ bs : List Nat) :
    SionFlowRT.okValue (unifyGo (as_.map .Value) (bs.map .Value)) =
    SionFlowRT.okValue (unifyGo (bs.map .Value) (as_.map .Value)) := by
  induction as_ generalizing bs with
  | nil =>
    cases bs with
    | nil => rfl
    | cons b bs => rfl
  | cons a as_ ih =>
    cases bs with
    | nil => rfl
    | cons b bs =>
      simp only [List.map_cons, unifyGo]
      have hd := unifyDims_value_okValue_comm a b
      cases h1 : unifyDims (.Value a) (.Value b) with
      | error e =>
        cases h2 : unifyDims (.Value b) (.Value a) with
        | error e2 => simp [SionFlowRT.okValue]
        | ok d => rw [h1, h2] at hd; simp [SionFlowRT.okValue] at hd
      | ok d =>
        cases h2 : unifyDims (.Value b) (.Value a) with
        | error e2 => rw [h1, h2] at hd; simp [SionFlowRT.okValue] at hd
        | ok d2 =>
          rw [h1, h2] at hd
          simp only [SionFlowRT.okValue, Option.some.injEq] at hd
          subst hd
          exact okValue_consMap d _ _ (ih bs)

theorem firstIdx_value_none (l : List Nat) :
    firstIdx Dimension.isEllipsis (l.map .Value) = none := by
  induction l with
  | nil => rfl
  | cons a l ih => simp [firstIdx, Dimension.isEllipsis, ih]

theorem expand_value_id (l : List Nat) (t : List Dimension) :
    expandEllipsisFromTarget (l.map .Value) t = l.map .Value := by
  simp [expandEllipsisFromTarget, firstIdx_value_none]

/-- Claim C7 (amended): on fully concrete shapes (every dim a concrete
value), `unify(A, B)` and `unify(B, A)` agree whenever both succeed; with
symbolic dims, `unify` is left-biased and not commutative. -/
theorem C7_unify_commutative_on_concrete (A B : List Nat) (s1 s2 : TensorShape)
    (h1 : unify ⟨A.map .Value⟩ ⟨B.map .Value⟩ = .ok s1)
    (h2 : unify ⟨B.map .Value⟩ ⟨A.map .Value⟩ = .ok s2) :
    s1 = s2 := by
  simp only [unify, expand_value_id, ← List.map_reverse] at h1 h2
  have hcomm := unifyGo_value_comm A.reverse B.reverse
  cases g1 : unifyGo (A.reverse.map .Value) (B.reverse.map .Value) with
  | error e => rw [g1] at h1; exact absurd h1 (by simp)
  | ok res1 =>
    cases g2 : unifyGo (B.reverse.map .Value) (A.reverse.map .Value) with
    | error e => rw [g2] at h2; exact absurd h2 (by simp)
    | ok res2 =>
      rw [g1] at h1
      rw [g2] at h2
      rw [g1, g2] at hcomm
      simp only [SionFlowRT.okValue, Option.some.injEq] at hcomm
      simp only [Except.ok.injEq] at h1 h2
      rw [← h1, ← h2, hcomm]

theorem C7_witness : (⟨[Dimension.Value 5]⟩ : TensorShape) = ⟨[Dimension.Value 5]⟩ :=
  C7_unify_commutative_on_concrete [5] [1] ⟨[Dimension.Value 5]⟩ ⟨[Dimension.Value 5]⟩ rfl rfl

/-- Claim C7 counterexample: `unify([N], [5])` and `unify([5], [N])` both
succeed but return different shapes — the left-hand dim wins in each
direction. -/
theorem C7_counterexample :
    unify ⟨[Dimension.Symbol "N"]⟩ ⟨[Dimension.Value 5]⟩ = .ok ⟨[Dimension.Symbol "N"]⟩ ∧
    unify ⟨[Dimension.Value 5]⟩ ⟨[Dimension.Symbol "N"]⟩ = .ok ⟨[Dimension.Value 5]⟩ ∧
    (⟨[Dimension.Symbol "N"]⟩ : TensorShape) ≠ ⟨[Dimension.Value 5]⟩ :=
  ⟨rfl, rfl, by decide⟩

end SionFlowRT.Legacy
